import Mathlib

/-!
Verification development for the Markdown → HTML renderers of this repository.

The repository ships two independent renderer files:
* `mdToHtml.js` — the main renderer: a delegating adapter around an optional
  external engine plus a self-contained fallback engine (block segmenter,
  block renderer, inline renderer) and the link-safety policy `safeLinkHref`.
* a second, minimal renderer file (modelled here with the `P0` prefix) that
  performs a fixed sequence of global regex substitutions.

Everything below is a shallow embedding of that JavaScript, working over
`List Char` (with `String` wrappers that keep the source names).  JavaScript
regex replacement (`String.replace` with a `g` flag) is embedded as an
explicit left-to-right scanner: at every position the (deterministic
residue of the) pattern is attempted; on success the replacement is emitted
and scanning resumes after the match, otherwise one character is copied.
Each matcher's derivation from the regex (greedy/lazy runs, back-tracking
that can actually occur) is documented at its definition.

Notes on fidelity:
* JS `String.prototype.trim` and the regex class `\s` cover the same set of
  characters (ASCII whitespace, NBSP, BOM, and the Unicode space
  separators); `isJsWs` below lists them.
* JS `toLowerCase` is embedded ASCII-only (`Char.toLower`).  For the scheme
  prefix tests of `safeLinkHref` this is extensionally adequate: no
  non-ASCII character lower-cases to any single character of
  `javascript:` / `vbscript:` / `data:` (the only non-ASCII character that
  lower-cases to a single ASCII letter is U+212A KELVIN SIGN → `k`, which
  occurs in none of the three schemes).
-/

namespace MdSpec

/-- The character set matched by JS `\s` and trimmed by JS `trim()`:
whitespace, line terminators, NBSP, BOM and Unicode space separators. -/
def isJsWs (c : Char) : Bool :=
  c = ' ' || c = '\t' || c = '\n' || c = '\r' || c = '\x0b' || c = '\x0c' ||
  c = '\u00a0' || c = '\u1680' || ('\u2000' ≤ c && c ≤ '\u200a') ||
  c = '\u2028' || c = '\u2029' || c = '\u202f' || c = '\u205f' ||
  c = '\u3000' || c = '\ufeff'

/-- JS `str.trim()` on a character list: drop `isJsWs` from both ends. -/
def jsTrimL (l : List Char) : List Char :=
  ((l.dropWhile isJsWs).reverse.dropWhile isJsWs).reverse

/-- JS `str.trim()`. -/
def jsTrim (s : String) : String := ⟨jsTrimL s.data⟩

/-- JS `str.toLowerCase()` (ASCII fragment, see the fidelity note above). -/
def jsToLowerL (l : List Char) : List Char := l.map Char.toLower

/-- JS `str.startsWith(p)` / the regex literal `p` matching at the head. -/
def startsWithL : List Char → List Char → Bool
  | [], _ => true
  | _ :: _, [] => false
  | a :: p, b :: s => a = b && startsWithL p s

/-- Whether `pat` occurs as a contiguous substring. -/
def hasSubstr (pat : List Char) : List Char → Bool
  | [] => pat.isEmpty
  | c :: t => startsWithL pat (c :: t) || hasSubstr pat t

/-- Case-insensitive literal match at the head (for `i`-flagged regexes),
comparing ASCII-lower-cased characters. -/
def icaseStarts (p s : List Char) : Bool :=
  startsWithL (jsToLowerL p) (jsToLowerL s)

/-- JS global replacement of one fixed non-empty pattern by a fixed string
(`str.replace(/pat/g, rep)` for a literal pattern): leftmost,
non-overlapping, scanning resumes after each match. -/
def replaceAllL (pat rep : List Char) (s : List Char) : List Char :=
  go s.length s
where
  /-- Structural recursion on a fuel that starts at the list length; every
  step consumes at least one character, so the fuel never runs out first
  (the fuel-0 case is unreachable). -/
  go : Nat → List Char → List Char
  | _, [] => []
  | 0, l => l
  | fuel + 1, c :: t =>
    if pat ≠ [] ∧ startsWithL pat (c :: t) then
      rep ++ go fuel ((c :: t).drop pat.length)
    else
      c :: go fuel t

/-- `escapeHtml` (mdToHtml.js lines 32–39): the five sequential global
replaces `&`→`&amp;`, `<`→`&lt;`, `>`→`&gt;`, `"`→`&quot;`, `'`→`&#39;`.
The second renderer file defines the identical function. -/
def escapeHtmlL (l : List Char) : List Char :=
  replaceAllL ['\''] "&#39;".data
    (replaceAllL ['"'] "&quot;".data
      (replaceAllL ['>'] "&gt;".data
        (replaceAllL ['<'] "&lt;".data
          (replaceAllL ['&'] "&amp;".data l))))

/-- `escapeHtml` on `String`. -/
def escapeHtml (s : String) : String := ⟨escapeHtmlL s.data⟩

/-- `unescapeHtml` (mdToHtml.js lines 41–49): sequential global replaces
`&lt;`→`<`, `&gt;`→`>`, `&quot;`→`"`, `&#39;`→`'`, `&amp;`→`&`. -/
def unescapeHtmlL (l : List Char) : List Char :=
  replaceAllL "&amp;".data ['&']
    (replaceAllL "&#39;".data ['\'']
      (replaceAllL "&quot;".data ['"']
        (replaceAllL "&gt;".data ['>']
          (replaceAllL "&lt;".data ['<'] l))))

/-- `escapeAttr` (mdToHtml.js lines 59–62): `escapeHtml` then backtick →
`&#96;`. -/
def escapeAttrL (l : List Char) : List Char :=
  replaceAllL ['`'] "&#96;".data (escapeHtmlL l)

/-- `escapeAttr` on `String`. -/
def escapeAttr (s : String) : String := ⟨escapeAttrL s.data⟩

/-- `safeLinkHref` (mdToHtml.js lines 64–75) on a character list.
`String(href || "")` is the identity on the strings reaching it; then:
trim; empty → empty; `allowUnsafeLinks` → pass the trimmed value; else
reject (empty) when the lower-cased value starts with `javascript:`,
`vbscript:` or `data:`; otherwise return the trimmed value. -/
def safeLinkHrefL (href : List Char) (allowUnsafeLinks : Bool) : List Char :=
  let h := jsTrimL href
  if h = [] then []
  else if allowUnsafeLinks then h
  else
    let lower := jsToLowerL h
    if startsWithL "javascript:".data lower || startsWithL "vbscript:".data lower then []
    else if startsWithL "data:".data lower then []
    else h

/-- `safeLinkHref` on `String` (the spec's `validateHref`). -/
def safeLinkHref (href : String) (allowUnsafeLinks : Bool) : String :=
  ⟨safeLinkHrefL href.data allowUnsafeLinks⟩

/-- `normalizeNewlines` (mdToHtml.js lines 51–53).  The input is an optional
string: `none` models JS `null`/`undefined` (mapped to `""` by
`String(md == null ? "" : md)`); then `\r\n`→`\n` and `\r`→`\n` globally. -/
def normalizeNewlines (md : Option String) : String :=
  ⟨replaceAllL ['\r'] ['\n']
    (replaceAllL ['\r', '\n'] ['\n'] (md.getD "").data)⟩

/-- JS `str.split("\n")` on a character list (keeps empty pieces; the split
of `[]` is `[[]]`, as in JS). -/
def splitNLL : List Char → List (List Char)
  | [] => [[]]
  | c :: t =>
    if c = '\n' then [] :: splitNLL t
    else
      match splitNLL t with
      | h :: r => (c :: h) :: r
      | [] => [[c]]

/-- `splitLines` (mdToHtml.js lines 195–197). -/
def splitLines (md : Option String) : List String :=
  (splitNLL (normalizeNewlines md).data).map (fun l => ⟨l⟩)

/-- JS `lines.join("\n")`. -/
def joinNL : List String → String
  | [] => ""
  | [a] => a
  | a :: t => a ++ "\n" ++ joinNL t

/-! ## Generic embedding of JS global regex replacement -/

/-- One pass of a JS `g`-flagged `replace`: at each position the matcher
`f` is tried (returning the replacement and the positive length of a match
starting exactly here); on a match the replacement is emitted and the scan
resumes after the match, otherwise one character is copied.  This is the
left-to-right, non-overlapping semantics of `String.replace(/…/g, cb)`
(none of the embedded patterns can match the empty string). -/
def scanRepl (f : List Char → Option (List Char × Nat)) (s : List Char) : List Char :=
  go s.length s
where
  /-- Structural recursion on a fuel that starts at the list length; every
  step consumes at least one character, so the fuel never runs out first
  (the fuel-0 case is unreachable). -/
  go : Nat → List Char → List Char
  | _, [] => []
  | 0, l => l
  | fuel + 1, c :: t =>
    match f (c :: t) with
    | some (rep, n + 1) => rep ++ go fuel ((c :: t).drop (n + 1))
    | _ => c :: go fuel t

/-- A `g`-replace for a pattern beginning with an `(^|X)` alternation:
`m0` is the matcher for the `^` branch (only available at position 0 —
JS tries it first there), `m1` the matcher whose match begins with one
`X`-class character (available everywhere). -/
def scanStart (m0 m1 : List Char → Option (List Char × Nat)) (s : List Char) : List Char :=
  match m0 s with
  | some (rep, n + 1) => rep ++ scanRepl m1 (s.drop (n + 1))
  | _ =>
    match m1 s with
    | some (rep, n + 1) => rep ++ scanRepl m1 (s.drop (n + 1))
    | _ =>
      match s with
      | [] => []
      | c :: t => c :: scanRepl m1 t

/-! ## Options -/

/-- The two option fields the fallback inline renderer reads.
`allowUnsafeLinks` models `!!options.allowUnsafeLinks`; `linkTargetBlank`
models the truth value of `options.linkTargetBlank !== false` (so an absent
option is `true`).  All-absent options are `defaultOpts`. -/
structure Opts where
  allowUnsafeLinks : Bool
  linkTargetBlank : Bool
deriving DecidableEq

/-- Options object `{}` / absent: scheme validation on, target rewriting on. -/
def defaultOpts : Opts := ⟨false, true⟩

/-- The `' target="_blank" rel="noopener noreferrer"'` fragment the inline
renderer appends when `options.linkTargetBlank !== false`. -/
def targetAttr (opts : Opts) : List Char :=
  if opts.linkTargetBlank then " target=\"_blank\" rel=\"noopener noreferrer\"".data else []

/-- The backtick character (96). -/
def btick : Char := "`".data.getD 0 ' '

/-! ## Inline renderer stages (mdToHtml.js `renderInline`, lines 354–410)

Stage 1, inline code (lines 362–364).  Regex: open-context alternation
(start-of-string or one non-backtick), a backtick, `[^…]+` (greedy,
non-empty, cannot contain a backtick, hence the maximal run up to the next
backtick), a closing backtick, and a negative look-ahead for a backtick.
If the look-ahead fails, shortening the greedy run puts a non-backtick
where the closing backtick is required, so the whole attempt at this start
position fails — the matcher below is exact. -/

/-- The part of the inline-code pattern after its `p1` context; replacement
`"<code>" + code + "</code>"`. -/
def codeCore (s : List Char) : Option (List Char × Nat) :=
  match s with
  | c :: t =>
    if c = btick then
      let run := t.takeWhile (fun x => x ≠ btick)
      if run = [] then none
      else
        match t.drop run.length with
        | d :: u =>
          if d = btick && startsWithL [btick] u = false then
            some ("<code>".data ++ run ++ "</code>".data, run.length + 2)
          else none
        | [] => none
    else none
  | [] => none

/-- Inline-code matcher away from the start: `p1` is one non-backtick
character, re-emitted before the `<code>` element. -/
def codeM1 : List Char → Option (List Char × Nat)
  | c :: t =>
    if c = btick then none
    else (codeCore t).map (fun p => (c :: p.1, p.2 + 1))
  | [] => none

/-- Stage 1: inline code spans. -/
def codeStage (s : List Char) : List Char := scanStart codeCore codeM1 s

/-- The shared `(\s*[^)\s]+)(?:\s+"([^"]*)")?\s*\)` tail of the image and
link patterns (lines 367 and 375): group 2 (leading `\s*` plus the maximal
non-empty run of characters that are neither `)` nor whitespace), an
optional title (`\s+` then a double-quoted run of non-quotes; the greedy
pieces are followed by characters outside their classes, so each is
deterministic; if the optional group cannot complete, the engine retries
without it), then `\s*` and the closing parenthesis.  Returns
(group2, title group, consumed length). -/
def urlTitleCore (s : List Char) : Option (List Char × Option (List Char) × Nat) :=
  let ws0 := s.takeWhile isJsWs
  let s1 := s.drop ws0.length
  let run := s1.takeWhile (fun c => c ≠ ')' && ¬ isJsWs c)
  if run = [] then none
  else
    let s2 := s1.drop run.length
    let url := ws0 ++ run
    let base := ws0.length + run.length
    let ws1 := s2.takeWhile isJsWs
    let withTitle : Option (List Char × Nat) :=
      if ws1 = [] then none
      else
        match s2.drop ws1.length with
        | '"' :: s3 =>
          let ttl := s3.takeWhile (fun c => c ≠ '"')
          match s3.drop ttl.length with
          | '"' :: s4 =>
            let ws2 := s4.takeWhile isJsWs
            match s4.drop ws2.length with
            | ')' :: _ => some (ttl, ws1.length + 1 + ttl.length + 1 + ws2.length + 1)
            | _ => none
          | _ => none
        | _ => none
    match withTitle with
    | some (ttl, extra) => some (url, some ttl, base + extra)
    | none =>
      match s2.drop ws1.length with
      | ')' :: _ => some (url, none, base + ws1.length + 1)
      | _ => none

/-- `const t = title ? ' title="' + escapeAttr(title) + '"' : "";` —
an absent or empty (falsy) title contributes nothing. -/
def titleAttr : Option (List Char) → List Char
  | some tt => if tt = [] then [] else " title=\"".data ++ escapeAttrL tt ++ ['"']
  | none => []

/-- The image-stage callback (lines 367–372): a rejected href drops the
image entirely; otherwise an `<img>` with attribute-escaped src/alt/title. -/
def imageRepl (opts : Opts) (alt url : List Char) (title : Option (List Char)) : List Char :=
  let href := safeLinkHrefL (unescapeHtmlL url) opts.allowUnsafeLinks
  if href = [] then []
  else
    "<img src=\"".data ++ escapeAttrL href ++ "\" alt=\"".data ++ escapeAttrL alt
      ++ ['"'] ++ titleAttr title ++ "/>".data

/-- Stage 2 matcher, images: `!` `[`, `[^\]]*` (alt, maximal run of
non-`]`, possibly empty), `]` `(`, then the shared url/title tail. -/
def imageM (opts : Opts) : List Char → Option (List Char × Nat)
  | '!' :: '[' :: t =>
    let alt := t.takeWhile (fun c => c ≠ ']')
    (match t.drop alt.length with
     | ']' :: '(' :: u =>
       match urlTitleCore u with
       | some (url, title, n) => some (imageRepl opts alt url title, 2 + alt.length + 2 + n)
       | none => none
     | _ => none)
  | _ => none

/-- Stage 2: images. -/
def imageStage (opts : Opts) (s : List Char) : List Char := scanRepl (imageM opts) s

/-- The link-stage callback (lines 375–381): a rejected href falls back to
a literal `#`; the label is inserted as-is (it is already-escaped text). -/
def linkRepl (opts : Opts) (label url : List Char) (title : Option (List Char)) : List Char :=
  let h := safeLinkHrefL (unescapeHtmlL url) opts.allowUnsafeLinks
  let safe := if h = [] then "#".data else h
  "<a href=\"".data ++ escapeAttrL safe ++ ['"'] ++ titleAttr title ++ targetAttr opts
    ++ ['>'] ++ label ++ "</a>".data

/-- Stage 3 matcher, links: like images without `!` and with a non-empty
label (`[^\]]+`). -/
def linkM (opts : Opts) : List Char → Option (List Char × Nat)
  | '[' :: t =>
    let label := t.takeWhile (fun c => c ≠ ']')
    if label = [] then none
    else
      match t.drop label.length with
      | ']' :: '(' :: u =>
        match urlTitleCore u with
        | some (url, title, n) => some (linkRepl opts label url title, 1 + label.length + 2 + n)
        | none => none
      | _ => none
  | _ => none

/-- Stage 3: links. -/
def linkStage (opts : Opts) (s : List Char) : List Char := scanRepl (linkM opts) s

/-- The autolink scheme alternation `(https?:\/\/|mailto:)`, matched
case-insensitively (the stage's regex carries the `i` flag); `s?` is
greedy, so `https://` is tried before `http://`. -/
def autoSchemeLen (t : List Char) : Option Nat :=
  if icaseStarts "https://".data t then some 8
  else if icaseStarts "http://".data t then some 7
  else if icaseStarts "mailto:".data t then some 7
  else none

/-- Stage 4 matcher, autolinks (lines 384–388): the escaped `&lt;` form,
a scheme, `[^&\s]+` (maximal, non-empty; it cannot contain `&`, so the
closing `&gt;` literal is deterministic), then `&gt;` — everything
case-insensitive.  The callback or-defaults the validated href to `#`. -/
def autoM (opts : Opts) (s : List Char) : Option (List Char × Nat) :=
  if icaseStarts "&lt;".data s then
    let t := s.drop 4
    match autoSchemeLen t with
    | some k =>
      let body := (t.drop k).takeWhile (fun c => c ≠ '&' && ¬ isJsWs c)
      if body = [] then none
      else if icaseStarts "&gt;".data (t.drop (k + body.length)) then
        let url := t.take (k + body.length)
        let h := safeLinkHrefL (unescapeHtmlL url) opts.allowUnsafeLinks
        let href := if h = [] then "#".data else h
        some ("<a href=\"".data ++ escapeAttrL href ++ ['"'] ++ targetAttr opts
          ++ ['>'] ++ url ++ "</a>".data, 4 + k + body.length + 4)
      else none
    | none => none
  else none

/-- Stage 4: autolinks. -/
def autoStage (opts : Opts) (s : List Char) : List Char := scanRepl (autoM opts) s

/-- The bare-URL callback (lines 391–396): a rejected URL is left as the
literal text `p1 + url`; otherwise `p1` plus an anchor. -/
def bareUrlRepl (opts : Opts) (p1 url : List Char) : List Char :=
  let href := safeLinkHrefL (unescapeHtmlL url) opts.allowUnsafeLinks
  if href = [] then p1 ++ url
  else
    p1 ++ "<a href=\"".data ++ escapeAttrL href ++ ['"'] ++ targetAttr opts
      ++ ['>'] ++ url ++ "</a>".data

/-- The `((https?:\/\/)[^\s<]+)` core of the bare-URL pattern
(case-sensitive; `s?` greedy): returns (url, consumed). -/
def bareCore (s : List Char) : Option (List Char × Nat) :=
  let k? : Option Nat :=
    if startsWithL "https://".data s then some 8
    else if startsWithL "http://".data s then some 7
    else none
  match k? with
  | some k =>
    let body := (s.drop k).takeWhile (fun c => ¬ isJsWs c && c ≠ '<')
    if body = [] then none
    else some (s.take (k + body.length), k + body.length)
  | none => none

/-- Stage 5 `^`-branch matcher (empty `p1`). -/
def bareM0 (opts : Opts) (s : List Char) : Option (List Char × Nat) :=
  (bareCore s).map (fun p => (bareUrlRepl opts [] p.1, p.2))

/-- Stage 5 matcher away from the start: `p1` is one `[\s(]` character. -/
def bareM1 (opts : Opts) : List Char → Option (List Char × Nat)
  | c :: t =>
    if isJsWs c || c = '(' then
      (bareCore t).map (fun p => (bareUrlRepl opts [c] p.1, p.2 + 1))
    else none
  | [] => none

/-- Stage 5: bare `http(s)://` URLs. -/
def bareStage (opts : Opts) (s : List Char) : List Char := scanStart (bareM0 opts) (bareM1 opts) s

/-- Stage 6 matcher, strikethrough `~~([^~\n]+)~~` (line 399): two tildes,
a maximal non-empty run free of tildes and newlines, two tildes (if only
one tilde follows the run the attempt fails — shortening the run cannot
produce a tilde earlier). -/
def strikeM : List Char → Option (List Char × Nat)
  | '~' :: '~' :: t =>
    let run := t.takeWhile (fun c => c ≠ '~' && c ≠ '\n')
    if run = [] then none
    else
      match t.drop run.length with
      | '~' :: '~' :: _ => some ("<del>".data ++ run ++ "</del>".data, run.length + 4)
      | _ => none
  | _ => none

/-- Stage 6: strikethrough. -/
def strikeStage (s : List Char) : List Char := scanRepl strikeM s

/-- First position `j` at which two consecutive `d`s occur. -/
def findDD (d : Char) : List Char → Option Nat
  | a :: b :: r => if a = d ∧ b = d then some 0 else (findDD d (b :: r)).map (· + 1)
  | _ => none

/-- Stage 7/8 matcher, bold `dd([\s\S]+?)dd` for `d` = `*` or `_`
(lines 402–403): the lazy any-character group takes the shortest non-empty
content, i.e. everything before the first `dd` occurring at index ≥ 1
after the opener. -/
def boldM (d : Char) : List Char → Option (List Char × Nat)
  | a :: b :: t =>
    if a = d ∧ b = d then
      match t with
      | _ :: t1 =>
        match findDD d t1 with
        | some j => some ("<strong>".data ++ t.take (j + 1) ++ "</strong>".data, (j + 1) + 4)
        | none => none
      | [] => none
    else none
  | _ => none

/-- Stages 7 and 8: bold (`**` then `__`). -/
def boldStage (d : Char) (s : List Char) : List Char := scanRepl (boldM d) s

/-- Stage 9/10 core, italic `(^|[^d])d([^d\n]+)d(?!d)` for `d` = `*` or `_`
(lines 406–407), the part after `p1`: a delimiter, a maximal non-empty run
free of the delimiter and newlines, a closing delimiter, and a negative
look-ahead (as with inline code, its failure kills the whole attempt). -/
def italCore (d : Char) (s : List Char) : Option (List Char × Nat) :=
  match s with
  | c :: t =>
    if c = d then
      let run := t.takeWhile (fun x => x ≠ d && x ≠ '\n')
      if run = [] then none
      else
        match t.drop run.length with
        | x :: u =>
          if x = d && startsWithL [d] u = false then
            some ("<em>".data ++ run ++ "</em>".data, run.length + 2)
          else none
        | [] => none
    else none
  | [] => none

/-- Italic matcher away from the start: `p1` is one non-delimiter
character, re-emitted (`"$1<em>$2</em>"`). -/
def italM1 (d : Char) : List Char → Option (List Char × Nat)
  | c :: t => if c = d then none else (italCore d t).map (fun p => (c :: p.1, p.2 + 1))
  | [] => none

/-- Stages 9 and 10: italic (`*` then `_`). -/
def italStage (d : Char) (s : List Char) : List Char := scanStart (italCore d) (italM1 d) s

/-- The inline pipeline on character lists: escape once, then the ten
substitution stages in source order. -/
def inlineRun (opts : Opts) (d : List Char) : List Char :=
  italStage '_'
    (italStage '*'
      (boldStage '_'
        (boldStage '*'
          (strikeStage
            (bareStage opts
              (autoStage opts
                (linkStage opts
                  (imageStage opts
                    (codeStage
                      (escapeHtmlL d))))))))))

/-- `renderInline` (mdToHtml.js lines 354–410). -/
def renderInline (text : String) (opts : Opts) : String := ⟨inlineRun opts text.data⟩

/-! ## Block-level parsers (mdToHtml.js fallback engine)

Functions that in the source take `(lines, i)` and scan forward are
embedded on the suffix `lines.drop i`, returning the parsed payload
together with the number of lines consumed. -/

/-- A fenced-code opener. -/
structure Fence where
  indent : Nat
  marker : String
  lang : String
deriving DecidableEq

/-- The `[A-Za-z0-9_-]` class of the fence language tag. -/
def isLangChar (c : Char) : Bool :=
  ('A' ≤ c && c ≤ 'Z') || ('a' ≤ c && c ≤ 'z') || ('0' ≤ c && c ≤ '9') || c = '_' || c = '-'

/-- `parseFence` (lines 199–204), regex
`^(\s*)(BT BT BT|~~~)\s*([A-Za-z0-9_-]+)?\s*$` (BT = backtick): leading
whitespace, a marker of exactly three backticks or tildes (the alternation
has no way to absorb a fourth marker character, and the language class
excludes them, so e.g. four backticks do NOT open a fence), optional
whitespace, an optional language word, trailing whitespace, end. -/
def parseFence (line : String) : Option Fence :=
  let d := line.data
  let ws0 := d.takeWhile isJsWs
  let r := d.drop ws0.length
  let mk? : Option String :=
    if startsWithL "```".data r then some "```"
    else if startsWithL "~~~".data r then some "~~~"
    else none
  match mk? with
  | some marker =>
    let r1 := r.drop 3
    let r2 := r1.drop (r1.takeWhile isJsWs).length
    let lang := r2.takeWhile isLangChar
    let r3 := r2.drop lang.length
    if (r3.dropWhile isJsWs).isEmpty then some ⟨ws0.length, marker, ⟨lang⟩⟩ else none
  | none => none

/-- The fence-closing test of the segmenter (line 483):
`new RegExp("^\\s*" + marker + "\\s*$")` — optional whitespace, the exact
three-character marker, optional whitespace, end (so a longer marker run
does not close the fence). -/
def fenceCloseTest (marker : String) (l : String) : Bool :=
  let r := l.data.dropWhile isJsWs
  startsWithL marker.data r && ((r.drop marker.data.length).dropWhile isJsWs).isEmpty

/-- The fence body loop (lines 479–487): collect lines until a closing
line (returning whether one was found). -/
def fenceCollect (marker : String) : List String → List String × Bool
  | [] => ([], false)
  | l :: t =>
    if fenceCloseTest marker l then ([], true)
    else
      let r := fenceCollect marker t
      (l :: r.1, r.2)

/-- The indented-code test `/^( {4,}|\t)/` (lines 320, 325, 346). -/
def indentTest (l : String) : Bool :=
  (l.data.takeWhile (fun c => c = ' ')).length ≥ 4 || startsWithL "\t".data l.data

/-- The indented-code strip `line.replace(/^( {4}|\t)/, "")` — exactly four
spaces or one tab (line 327). -/
def indentStrip (l : String) : String :=
  if startsWithL "    ".data l.data then ⟨l.data.drop 4⟩
  else if startsWithL "\t".data l.data then ⟨l.data.drop 1⟩
  else l

/-- The indented-code loop (lines 321–329): stop at a non-indented
non-blank line; skip blank lines while the buffer is still empty; push
stripped lines (blank lines after content are pushed too). -/
def icGo : List String → Bool → List String × Nat
  | [], _ => ([], 0)
  | l :: t, hasBuf =>
    if indentTest l = false ∧ jsTrim l ≠ "" then ([], 0)
    else if jsTrim l = "" ∧ hasBuf = false then
      let r := icGo t hasBuf
      (r.1, r.2 + 1)
    else
      let r := icGo t true
      (indentStrip l :: r.1, r.2 + 1)

/-- `parseIndentedCode` (lines 318–331) on the line suffix: (stripped
lines, consumed count). -/
def parseIndentedCode (ls : List String) : Option (List String × Nat) :=
  match ls with
  | l :: _ => if indentTest l then some (icGo ls false) else none
  | [] => none

/-- The setext underline classifier: trimmed `/^=+$/` → level 1,
trimmed `/^-+$/` → level 2 (lines 225–227). -/
def setextLineKind (l2 : String) : Option Nat :=
  let t := (jsTrim l2).data
  if t ≠ [] ∧ t.all (fun c => c = '=') then some 1
  else if t ≠ [] ∧ t.all (fun c => c = '-') then some 2
  else none

/-- `parseSetextHeading` (lines 219–228) on the line suffix (needs two
lines; the text is the first line trimmed; two lines are consumed). -/
def parseSetext (ls : List String) : Option (Nat × String) :=
  match ls with
  | l1 :: l2 :: _ =>
    if jsTrim l1 = "" then none
    else
      match setextLineKind l2 with
      | some lv => some (lv, jsTrim l1)
      | none => none
  | _ => none

/-- Whether a suffix belongs to the language `\s*#*\s*$` — the trailer the
lazy heading text must leave behind. -/
def trailerOk (l : List Char) : Bool :=
  (((l.dropWhile isJsWs).dropWhile (fun c => c = '#')).dropWhile isJsWs).isEmpty

/-- The lazy `(.+?)` of the ATX pattern: the shortest non-empty prefix
whose remainder matches `\s*#*\s*$` (for a non-empty input some split
always exists, because the empty remainder is in the trailer language). -/
def minTextSplit : List Char → Option (List Char)
  | [] => none
  | c :: t => if trailerOk t then some [c] else (minTextSplit t).map (fun r => c :: r)

/-- `parseAtxHeading` (lines 212–217), regex
`^(#{1,6})\s+(.+?)\s*#*\s*$`.  The hash run is maximal (1–6; with seven or
more hashes every back-off leaves a `#` where `\s+` must match, so there is
no match).  `\s+` is greedy; `(.+?)` is lazy, so for the maximal
whitespace run `w` the text is the minimal split satisfying the trailer —
unless the line ends after the whitespace, in which case `\s+` backs off a
single character which then becomes the (whitespace) heading text, which
needs `w ≥ 2`. -/
def parseAtxHeading (line : String) : Option (Nat × String) :=
  let d := line.data
  let hs := d.takeWhile (fun c => c = '#')
  if hs.length < 1 ∨ hs.length > 6 then none
  else
    let a := d.drop hs.length
    let w := (a.takeWhile isJsWs).length
    if w = 0 then none
    else
      match minTextSplit (a.drop w) with
      | some text => some (hs.length, ⟨text⟩)
      | none => if w ≥ 2 then some (hs.length, ⟨a.drop (w - 1)⟩) else none

/-- One `(\*\s*)` (resp. `-`, `_`) iteration chain of the thematic-break
patterns: the marker, then any whitespace, repeatedly; `some n` when the
whole (trimmed) line is consumed after `n` markers. -/
def themRun (mark : Char) (l : List Char) : Option Nat :=
  go l.length l 0
where
  /-- Fuel-structural form of the iteration (each step consumes at least
  the marker character, so the fuel never runs out first). -/
  go : Nat → List Char → Nat → Option Nat
  | _, [], n => some n
  | 0, _, _ => none
  | fuel + 1, c :: t, n =>
    if c = mark then go fuel (t.dropWhile isJsWs) (n + 1)
    else none

/-- `isThematicBreak` (lines 206–210): the trimmed line matches
`^(\*\s*){3,}$`, `^(-\s*){3,}$` or `^(_\s*){3,}$`. -/
def isThematicBreak (line : String) : Bool :=
  let t := (jsTrim line).data
  let ok := fun (m : Char) =>
    match themRun m t with
    | some n => decide (n ≥ 3)
    | none => false
  ok '*' || ok '-' || ok '_'

/-- The blockquote line test `/^\s*>/` (lines 231, 236, 342). -/
def bqTest (l : String) : Bool := startsWithL ">".data (l.data.dropWhile isJsWs)

/-- The blockquote prefix strip `line.replace(/^\s*>\s?/, "")` (line 237):
whitespace, the `>`, then at most one whitespace character. -/
def bqStripLine (l : String) : String :=
  match l.data.dropWhile isJsWs with
  | '>' :: t =>
    match t with
    | c :: t1 => if isJsWs c then ⟨t1⟩ else ⟨t⟩
    | [] => ⟨[]⟩
  | _ => l

/-- The blockquote run loop (lines 233–239). -/
def bqGo : List String → List String × Nat
  | [] => ([], 0)
  | l :: t =>
    if bqTest l then
      let r := bqGo t
      (bqStripLine l :: r.1, r.2 + 1)
    else ([], 0)

/-- `parseBlockquote` (lines 230–241) on the line suffix. -/
def parseBlockquote (ls : List String) : Option (List String × Nat) :=
  match ls with
  | l :: _ => if bqTest l then some (bqGo ls) else none
  | [] => none

/-- The `\s+(.+)$` tail of the list-item patterns on a (newline-free) line
rest `a`: greedy `\s+` takes the maximal whitespace run and `(.+)$` the
non-empty remainder; when nothing remains, `\s+` backs off one character
which `(.+)` then takes (needs a whitespace run of length ≥ 2) — with a
run of exactly one whitespace character and nothing after it there is no
match (the root cause of the C3 non-termination). -/
def markerContent (a : List Char) : Option (List Char) :=
  let w := (a.takeWhile isJsWs).length
  if w = 0 then none
  else
    let rem := a.drop w
    if rem ≠ [] then some rem
    else if w ≥ 2 then some (a.drop (w - 1)) else none

/-- The unordered item pattern `^(\s*)([-+*])\s+(.+)$` (lines 246, 259):
(indent width, item text). -/
def uMatch (l : String) : Option (Nat × String) :=
  let d := l.data
  let w := d.takeWhile isJsWs
  match d.drop w.length with
  | c :: t =>
    if c = '-' ∨ c = '+' ∨ c = '*' then
      (markerContent t).map (fun txt => (w.length, (⟨txt⟩ : String)))
    else none
  | [] => none

/-- ASCII digit. -/
def isDigitA (c : Char) : Bool := '0' ≤ c && c ≤ '9'

/-- The ordered item pattern `^(\s*)(\d+)[.)]\s+(.+)$` (lines 247, 260). -/
def oMatch (l : String) : Option (Nat × String) :=
  let d := l.data
  let w := d.takeWhile isJsWs
  let r := d.drop w.length
  let ds := r.takeWhile isDigitA
  if ds = [] then none
  else
    match r.drop ds.length with
    | c :: t =>
      if c = '.' ∨ c = ')' then
        (markerContent t).map (fun txt => (w.length, (⟨txt⟩ : String)))
      else none
    | [] => none

/-- The list item loop (lines 254–274): stop at a blank line, a
non-matching line, or a differing indent; otherwise push the item text. -/
def listGo (ordered : Bool) (ind0 : Nat) : List String → List String × Nat
  | [] => ([], 0)
  | l :: t =>
    if jsTrim l = "" then ([], 0)
    else
      match (if ordered then oMatch l else uMatch l) with
      | some (ind, txt) =>
        if ind = ind0 then
          let r := listGo ordered ind0 t
          (txt :: r.1, r.2 + 1)
        else ([], 0)
      | none => ([], 0)

/-- `parseList` (lines 243–277) on the line suffix:
(ordered, items, consumed).  A line matches at most one of the two item
patterns, so `isOrdered = !!o` and the `indent0` choice follow the source
directly. -/
def parseList (ls : List String) : Option (Bool × List String × Nat) :=
  match ls with
  | [] => none
  | l :: _ =>
    match oMatch l with
    | some (ind0, _) => some (true, listGo true ind0 ls)
    | none =>
      match uMatch l with
      | some (ind0, _) => some (false, listGo false ind0 ls)
      | none => none

/-- The paragraph-breaking list tests `/^(\s*)([-+*])\s+/` and
`/^(\s*)(\d+)[.)]\s+/` (lines 343–344) — unlike the full item patterns
these require no content after the marker. -/
def uStartTest (l : String) : Bool :=
  match l.data.dropWhile isJsWs with
  | c :: t =>
    (c = '-' || c = '+' || c = '*') &&
      (match t with | x :: _ => isJsWs x | [] => false)
  | [] => false

/-- Ordered variant of `uStartTest`. -/
def oStartTest (l : String) : Bool :=
  let r := l.data.dropWhile isJsWs
  let ds := r.takeWhile isDigitA
  !ds.isEmpty &&
    (match r.drop ds.length with
     | c :: t =>
       (c = '.' || c = ')') && (match t with | x :: _ => isJsWs x | [] => false)
     | [] => false)

/-- One cell of the table separator, `\s*:?-{3,}:?\s*` (each greedy piece
is followed by a character outside its class, so the parse is
deterministic): `some` of the consumed length. -/
def sepCell (s : List Char) : Option Nat :=
  let w1 := (s.takeWhile isJsWs).length
  let s1 := s.drop w1
  let c1 := if startsWithL ":".data s1 then 1 else 0
  let s2 := s1.drop c1
  let d := (s2.takeWhile (fun c => c = '-')).length
  if d < 3 then none
  else
    let s3 := s2.drop d
    let c2 := if startsWithL ":".data s3 then 1 else 0
    let s4 := s3.drop c2
    let w2 := (s4.takeWhile isJsWs).length
    some (w1 + c1 + d + c2 + w2)

/-- Whether a piece is exactly one separator cell. -/
def isCellFull (p : List Char) : Bool :=
  match sepCell p with
  | some n => n == p.length
  | none => false

/-- All-whitespace (possibly empty) piece. -/
def wsOnlyL (p : List Char) : Bool := p.all isJsWs

/-- JS `str.split("|")` on a character list. -/
def splitPipeL : List Char → List (List Char)
  | [] => [[]]
  | c :: t =>
    if c = '|' then [] :: splitPipeL t
    else
      match splitPipeL t with
      | h :: r => (c :: h) :: r
      | [] => [[c]]

/-- The separator-line test (line 288), regex
`^\|?(\s*:?-{3,}:?\s*\|)+\s*:?-{3,}:?\s*\|?\s*$` on the trimmed line.
Because a cell can contain no `|`, every `|` separates, and the pattern
demands at least two cells: after dropping an optional leading `|`,
either every `|`-separated piece is exactly one cell (no trailing `|`;
`(…|)+` needs ≥ 1 iteration plus the final cell, hence ≥ 2 pieces), or the
final piece is pure whitespace — the `\|?\s*$` tail after the last cell —
and the remaining ≥ 2 pieces are cells. -/
def isSepLine (s : List Char) : Bool :=
  let body := match s with
    | '|' :: t => t
    | _ => s
  let parts := splitPipeL body
  (decide (parts.length ≥ 2) && parts.all isCellFull) ||
  (decide (parts.length ≥ 3) && parts.dropLast.all isCellFull && wsOnlyL (parts.getLast?.getD []))

/-- `parseRow` (lines 290–295): trim, strip one leading and one trailing
`|`, split on `|`, trim the cells. -/
def parseRow (row : String) : List String :=
  let r0 := (jsTrim row).data
  let r1 := match r0 with
    | '|' :: t => t
    | _ => r0
  let r2 := if r1.getLast? = some '|' then r1.dropLast else r1
  (splitPipeL r2).map (fun c => jsTrim ⟨c⟩)

/-- The alignment of one separator cell (lines 298–306). -/
def alignOf (c : String) : String :=
  let t := (jsTrim c).data
  let left := startsWithL ":".data t
  let right := startsWithL ":".data t.reverse
  if left && right then "center"
  else if right then "right"
  else if left then "left"
  else ""

/-- JS `line.includes("|")`. -/
def containsPipe (l : String) : Bool := l.data.any (fun c => c = '|')

/-- The data-row loop (lines 308–313): rows continue while the line
contains a `|` and is non-blank. -/
def tableRowsGo : List String → List (List String) × Nat
  | [] => ([], 0)
  | l :: t =>
    if containsPipe l ∧ jsTrim l ≠ "" then
      let r := tableRowsGo t
      (parseRow l :: r.1, r.2 + 1)
    else ([], 0)

/-- Result of `parseTable`. -/
structure TableRes where
  headers : List String
  aligns : List String
  rows : List (List String)
  consumed : Nat
deriving DecidableEq

/-- `parseTable` (lines 279–316) on the line suffix: a header line
containing `|`, a valid separator line, then data rows (two lines plus the
rows are consumed). -/
def parseTable (ls : List String) : Option TableRes :=
  match ls with
  | [] => none
  | header :: rest =>
    if containsPipe header then
      let sepLine : String := match rest with
        | s :: _ => s
        | [] => ""
      if isSepLine (jsTrim sepLine).data then
        let rr := tableRowsGo (rest.drop 1)
        some ⟨parseRow header, (parseRow sepLine).map alignOf, rr.1, 2 + rr.2⟩
      else none
    else none

/-- The paragraph accumulation loop (lines 333–352): stop at a blank line
or at any line that starts another block type.  NOTE the breaking tests
for lists are laxer than `parseList` itself — a line like `"- "` breaks
the paragraph but is no list item, making an empty paragraph with zero
consumed lines possible (the C3 bug). -/
def paraGo : List String → List String × Nat
  | [] => ([], 0)
  | l :: t =>
    if jsTrim l = "" then ([], 0)
    else if (parseFence l).isSome ∨ (parseAtxHeading l).isSome ∨ isThematicBreak l then ([], 0)
    else if bqTest l then ([], 0)
    else if uStartTest l then ([], 0)
    else if oStartTest l then ([], 0)
    else if (parseTable (l :: t)).isSome then ([], 0)
    else if indentTest l then ([], 0)
    else
      let r := paraGo t
      (l :: r.1, r.2 + 1)

/-- `parseParagraph` (lines 333–352): always returns an object in the
source (possibly with an empty line buffer and `nextIndex = i`). -/
def parseParagraph (ls : List String) : List String × Nat := paraGo ls

/-! ## The block segmenter and renderer -/

/-- The `Block` tagged union pushed by the segmenter (spec §3). -/
inductive Block where
  | heading (level : Nat) (text : String)
  | hr
  | code (lang : String) (content : String)
  | blockquote (innerLines : List String)
  | list (ordered : Bool) (items : List String)
  | table (headers : List String) (aligns : List String) (rows : List (List String))
  | paragraph (lines : List String)
deriving DecidableEq

/-- One iteration of the segmenter's main loop (`fallbackMdToHtml`,
lines 471–559) at cursor `i`: `none` when `i` is past the end (the loop
exits); otherwise the optional block pushed and the new cursor, trying the
branches in source order — blank skip, fence, indented code, setext, ATX,
thematic break, blockquote, table, list, paragraph.  The source's final
"fallback single line paragraph" (lines 556–558) is dead code, because
`parseParagraph` always returns a truthy object. -/
def segStep (lines : List String) (i : Nat) : Option (Option Block × Nat) :=
  match lines.drop i with
  | [] => none
  | line :: rest =>
    if jsTrim line = "" then some (none, i + 1)
    else
      match parseFence line with
      | some f =>
        let bc := fenceCollect f.marker rest
        some (some (.code f.lang (joinNL bc.1)), i + 1 + bc.1.length + (if bc.2 then 1 else 0))
      | none =>
      match parseIndentedCode (line :: rest) with
      | some ic => some (some (.code "" (joinNL ic.1)), i + ic.2)
      | none =>
      match parseSetext (line :: rest) with
      | some st => some (some (.heading st.1 st.2), i + 2)
      | none =>
      match parseAtxHeading line with
      | some hx => some (some (.heading hx.1 hx.2), i + 1)
      | none =>
      if isThematicBreak line then some (some .hr, i + 1)
      else
        match parseBlockquote (line :: rest) with
        | some bq => some (some (.blockquote bq.1), i + bq.2)
        | none =>
        match parseTable (line :: rest) with
        | some tb => some (some (.table tb.headers tb.aligns tb.rows), i + tb.consumed)
        | none =>
        match parseList (line :: rest) with
        | some pl => some (some (.list pl.1 pl.2.1), i + pl.2.2)
        | none =>
          let p := parseParagraph (line :: rest)
          some (some (.paragraph p.1), i + p.2)

/-- The segmenter's `while (i < lines.length)` loop, fuel-indexed: the
JavaScript loop is unbounded, so divergence appears here as the result
still growing when the fuel does. -/
def segLoop (lines : List String) : Nat → Nat → List Block
  | 0, _ => []
  | fuel + 1, i =>
    match segStep lines i with
    | none => []
    | some (none, j) => segLoop lines fuel j
    | some (some b, j) => b :: segLoop lines fuel j

/-- The task-list item pattern `^\[( |x|X)\]\s+(.*)$` (line 432):
(checked, remaining text); `m[1].toLowerCase() === "x"` decides checked. -/
def taskSplit (it : String) : Option (Bool × String) :=
  match it.data with
  | '[' :: m :: ']' :: t =>
    if m = ' ' ∨ m = 'x' ∨ m = 'X' then
      let w := t.takeWhile isJsWs
      if w = [] then none
      else some (decide (m = 'x' ∨ m = 'X'), ⟨t.drop w.length⟩)
    else none
  | _ => none

/-- `renderBlock` (lines 412–462) with the recursive call into the whole
fallback engine (for blockquote content) abstracted as `recur`; it is
instantiated with the fuel-indexed engine below.  The list branch's `cls`
variable is `""` on both sides of its conditional in the source, so no
class attribute is ever emitted for lists. -/
def renderBlockWith (recur : Opts → Option String → String) (opts : Opts) (b : Block) : String :=
  match b with
  | .heading lv text =>
    "<h" ++ toString lv ++ ">" ++ renderInline text opts ++ "</h" ++ toString lv ++ ">"
  | .hr => "<hr/>"
  | .code lang content =>
    let cls := if lang ≠ "" then " class=\"language-" ++ escapeAttr lang ++ "\"" else ""
    "<pre><code" ++ cls ++ ">" ++ escapeHtml content ++ "</code></pre>"
  | .blockquote inner =>
    "<blockquote>" ++ recur opts (some (joinNL inner)) ++ "</blockquote>"
  | .list ordered items =>
    let tag := if ordered then "ol" else "ul"
    let body := String.join (items.map (fun it =>
      match taskSplit it with
      | some (checked, restTxt) =>
        "<li class=\"task-list-item\"><input type=\"checkbox\" disabled" ++
          (if checked then " checked" else "") ++ "/> " ++ renderInline restTxt opts ++ "</li>"
      | none => "<li>" ++ renderInline it opts ++ "</li>"))
    "<" ++ tag ++ ">" ++ body ++ "</" ++ tag ++ ">"
  | .table headers aligns rows =>
    let cellAlign := fun (idx : Nat) =>
      let a := aligns.getD idx ""
      if a ≠ "" then " style=\"text-align:" ++ a ++ ";\"" else ""
    let ths := String.join (headers.enum.map (fun p =>
      "<th" ++ cellAlign p.1 ++ ">" ++ renderInline p.2 opts ++ "</th>"))
    let trs := String.join (rows.map (fun r =>
      "<tr>" ++ String.join (r.enum.map (fun p =>
        "<td" ++ cellAlign p.1 ++ ">" ++ renderInline p.2 opts ++ "</td>")) ++ "</tr>"))
    "<table><thead><tr>" ++ ths ++ "</tr></thead><tbody>" ++ trs ++ "</tbody></table>"
  | .paragraph ls =>
    "<p>" ++ (⟨replaceAllL ['\n'] "<br/>".data (renderInline (joinNL ls) opts).data⟩ : String) ++ "</p>"

/-- `fallbackMdToHtml` (lines 464–563), fuel-indexed structurally: fuel
`f + 1` runs the segmenter loop (with loop fuel `f + 1`) and renders each
block, nested blockquote documents using engine fuel `f`; fuel 0 models
exhausted recursion and yields `""`. -/
def fallbackEngine : Nat → Opts → Option String → String
  | 0, _, _ => ""
  | f + 1, opts, md =>
    joinNL ((segLoop (splitLines md) (f + 1) 0).map
      (fun b => renderBlockWith (fun o m => fallbackEngine f o m) opts b))

/-- `fallbackMdToHtml` under the name used in the source. -/
def fallbackMdToHtmlF (fuel : Nat) (opts : Opts) (md : Option String) : String :=
  fallbackEngine fuel opts md

/-- `renderBlock` at engine fuel `fuel`. -/
def renderBlockF (fuel : Nat) (opts : Opts) (b : Block) : String :=
  renderBlockWith (fun o m => fallbackEngine fuel o m) opts b

/-- The public `mdToHtml` entry point (lines 569–577) in a host
environment without the external engine: `renderWithMarkdownIt` finds no
factory and returns `null`, so the fallback engine runs on the (possibly
null, i.e. `none`) input. -/
def mdToHtmlNoEngine (fuel : Nat) (md : Option String) (opts : Opts) : String :=
  fallbackMdToHtmlF fuel opts md

/-- The href rewriting of the delegating renderer's `link_open` override
(mdToHtml.js lines 170–184, installed when `allowUnsafeLinks` is unset):
`token.attrs[hrefIdx][1] = safeLinkHref(href, false) || "#"`. -/
def linkOpenOverride (href : String) : String :=
  let safe := safeLinkHref href false
  if safe = "" then "#" else safe

/-! ## The second renderer file (src/unnamed/part_000)

A single-pass global-substitution renderer.  Its `escapeHtml` is textually
identical to the main file's, so `escapeHtmlL` is reused; its italic regex
is identical to the main file's `*` italic stage, so `italStage` is
reused.  Everything else is embedded below with a `p0`/`P0` naming
convention. -/

/-- part_000 line 12: `String(md).replace(/\r\n/g, "\n")` — only the CRLF
pair is normalized (a lone `\r` is kept). -/
def normalize000 (md : String) : String :=
  ⟨replaceAllL ['\r', '\n'] ['\n'] md.data⟩

/-- First index at which three consecutive backticks occur. -/
def find3BT : List Char → Option Nat
  | a :: b :: c :: r =>
    if a = btick ∧ b = btick ∧ c = btick then some 0
    else (find3BT (b :: c :: r)).map (· + 1)
  | _ => none

/-- `code.replace(/^\n+|\n+$/g, "")` (part_000 line 21): the two anchored
alternatives strip exactly the leading and the trailing newline runs. -/
def stripEdgeNl (l : List Char) : List Char :=
  ((l.dropWhile (fun c => c = '\n')).reverse.dropWhile (fun c => c = '\n')).reverse

/-- Code-block matcher (part_000 lines 20–22), regex with three backticks,
then `([\s\S]*?)` — lazy, possibly empty, so the content ends at the first
closing triple backtick — then three backticks. -/
def codeBlockM (s : List Char) : Option (List Char × Nat) :=
  if startsWithL [btick, btick, btick] s then
    let t := s.drop 3
    match find3BT t with
    | some j =>
      some ("<pre><code>".data ++ stripEdgeNl (t.take j) ++ "</code></pre>".data, 3 + j + 3)
    | none => none
  else none

/-- part_000 code-block stage. -/
def codeBlockStage (s : List Char) : List Char := scanRepl codeBlockM s

/-- Largest index whose character is not a newline. -/
def lastNonNl : List Char → Option Nat
  | [] => none
  | c :: t =>
    match lastNonNl t with
    | some i => some (i + 1)
    | none => if c = '\n' then none else some 0

/-- The `\s+(.+)` tail shared by the part_000 heading and list-item
patterns (`.` excludes newlines; what follows is a satisfied look-ahead or
nothing): `\s+` greedily takes the maximal whitespace run `W` — which may
span newlines — and `(.+)` the following non-newline run; when nothing
follows `W` the engine backs the whitespace off to the largest index ≥ 1
holding a non-newline (whitespace) character, which then starts the text.
Returns (consumed length, text). -/
def wsThenText (a : List Char) : Option (Nat × List Char) :=
  let w := (a.takeWhile isJsWs).length
  if w = 0 then none
  else
    let rem := a.drop w
    if rem ≠ [] then
      let text := rem.takeWhile (fun c => c ≠ '\n')
      some (w + text.length, text)
    else
      match lastNonNl a with
      | some i =>
        if i ≥ 1 then
          let text := (a.drop i).takeWhile (fun c => c ≠ '\n')
          some (i + text.length, text)
        else none
      | none => none

/-- Heading matcher core (part_000 lines 27–29): `k` literal hashes, then
`\s+(.+)` with the `(?=\n|$)` look-ahead (automatic, since the greedy text
run stops at a newline or the end). -/
def headingCore (k : Nat) (o c : List Char) (s : List Char) : Option (List Char × Nat) :=
  if startsWithL (List.replicate k '#') s then
    match wsThenText (s.drop k) with
    | some (n, text) => some (o ++ text ++ c, k + n)
    | none => none
  else none

/-- Heading matcher away from the start: `p1` is a newline, re-emitted
(`"$1<h3>$2</h3>"` and alike). -/
def headingM1 (k : Nat) (o c : List Char) : List Char → Option (List Char × Nat)
  | '\n' :: t => (headingCore k o c t).map (fun p => ('\n' :: p.1, p.2 + 1))
  | _ => none

/-- part_000 heading stage (h3, h2, h1 with `k` = 3, 2, 1). -/
def headingStage (k : Nat) (o c : List Char) (s : List Char) : List Char :=
  scanStart (headingCore k o c) (headingM1 k o c) s

/-- Horizontal-rule matcher core (part_000 line 34): the literal `---`
with a `(?=\n|$)` look-ahead. -/
def hrCore (s : List Char) : Option (List Char × Nat) :=
  if startsWithL "---".data s then
    match s.drop 3 with
    | [] => some ("<hr/>".data, 3)
    | c :: _ => if c = '\n' then some ("<hr/>".data, 3) else none
  else none

/-- Horizontal-rule matcher away from the start (`p1` is a newline,
re-emitted by `"$1<hr/>"`). -/
def hrM1 : List Char → Option (List Char × Nat)
  | '\n' :: t => (hrCore t).map (fun p => ('\n' :: p.1, p.2 + 1))
  | _ => none

/-- part_000 horizontal-rule stage. -/
def hrStage (s : List Char) : List Char := scanStart hrCore hrM1 s

/-- One `&gt;.+` blockquote iteration (part_000 line 39): `some` of its
length. -/
def bqIter000 (s : List Char) : Option Nat :=
  if startsWithL "&gt;".data s then
    let r := (s.drop 4).takeWhile (fun c => c ≠ '\n')
    if r = [] then none else some (4 + r.length)
  else none

/-- The further `(\n&gt;.+)` iterations of the `(…)+` group (greedy,
maximal; fuel-structural on a fuel ≥ the list length). -/
def bqChain : Nat → List Char → Nat
  | 0, _ => 0
  | fuel + 1, s =>
    match s with
    | '\n' :: t =>
      match bqIter000 t with
      | some n => 1 + n + bqChain fuel (t.drop n)
      | none => 0
    | _ => 0

/-- Total length of a blockquote block starting here (without a leading
newline). -/
def bqBlockLen (s : List Char) : Option Nat :=
  match bqIter000 s with
  | some n0 => some (n0 + bqChain (s.drop n0).length (s.drop n0))
  | none => none

/-- At most one whitespace character dropped (the `\s?` of the quote-strip
pattern). -/
def dropWs1 : List Char → List Char
  | c :: t => if isJsWs c then t else c :: t
  | [] => []

/-- The inner strip `block.replace(/(^|\n)&gt;\s?/g, "$1")` (part_000
line 41) away from the block start: drop each newline-leading `&gt;` and
at most one following whitespace character, keeping the newline. -/
def bqStripGo : Nat → List Char → List Char
  | _, [] => []
  | 0, l => l
  | fuel + 1, c :: t =>
    if c = '\n' ∧ startsWithL "&gt;".data t then
      '\n' :: bqStripGo fuel (dropWs1 (t.drop 4))
    else c :: bqStripGo fuel t

/-- The inner strip including its `^` case. -/
def bqStrip000 (l : List Char) : List Char :=
  if startsWithL "&gt;".data l then bqStripGo l.length (dropWs1 (l.drop 4))
  else bqStripGo l.length l

/-- Blockquote callback (part_000 lines 39–44): strip the quote prefixes,
trim, wrap (the matched block — including a leading newline — is consumed
and not re-emitted). -/
def bqRepl (blockText : List Char) : List Char :=
  "<blockquote>".data ++ jsTrimL (bqStrip000 blockText) ++ "</blockquote>".data

/-- Blockquote matcher at the string start. -/
def bqM0 (s : List Char) : Option (List Char × Nat) :=
  (bqBlockLen s).map (fun n => (bqRepl (s.take n), n))

/-- Blockquote matcher at a newline (the newline belongs to the match). -/
def bqM1 : List Char → Option (List Char × Nat)
  | '\n' :: t => (bqBlockLen t).map (fun n => (bqRepl ('\n' :: t.take n), n + 1))
  | _ => none

/-- part_000 blockquote stage. -/
def bqStage (s : List Char) : List Char := scanStart bqM0 bqM1 s

/-- One `[*-]\s+.+` unordered-item iteration (part_000 line 50). -/
def ulIter (s : List Char) : Option Nat :=
  match s with
  | c :: t =>
    if c = '*' ∨ c = '-' then (wsThenText t).map (fun p => 1 + p.1)
    else none
  | [] => none

/-- One `\d+\.\s+.+` ordered-item iteration (part_000 line 60). -/
def olIter (s : List Char) : Option Nat :=
  let ds := s.takeWhile isDigitA
  if ds = [] then none
  else
    match s.drop ds.length with
    | '.' :: t => (wsThenText t).map (fun p => ds.length + 1 + p.1)
    | _ => none

/-- Further `(\n item)` iterations of a list block (greedy, maximal). -/
def listChain (iter : List Char → Option Nat) : Nat → List Char → Nat
  | 0, _ => 0
  | fuel + 1, s =>
    match s with
    | '\n' :: t =>
      match iter t with
      | some n => 1 + n + listChain iter fuel (t.drop n)
      | none => 0
    | _ => 0

/-- Total length of a list block starting here (without a leading
newline). -/
def listBlockLen (iter : List Char → Option Nat) (s : List Char) : Option Nat :=
  match iter s with
  | some n0 => some (n0 + listChain iter (s.drop n0).length (s.drop n0))
  | none => none

/-- Strip `/^[*-]\s+/` from one (newline-free) item line (part_000
line 54): the marker and the maximal whitespace run; no match leaves the
line unchanged. -/
def ulItemStrip (l : List Char) : List Char :=
  match l with
  | c :: t =>
    if c = '*' ∨ c = '-' then
      let w := (t.takeWhile isJsWs).length
      if w ≥ 1 then t.drop w else l
    else l
  | [] => []

/-- Strip `/^\d+\.\s+/` from one item line (part_000 line 64). -/
def olItemStrip (l : List Char) : List Char :=
  let ds := l.takeWhile isDigitA
  if ds = [] then l
  else
    match l.drop ds.length with
    | '.' :: t =>
      let w := (t.takeWhile isJsWs).length
      if w ≥ 1 then t.drop w else l
    | _ => l

/-- `lines.join("\n")` on character lists. -/
def joinNLC : List (List Char) → List Char
  | [] => []
  | [a] => a
  | a :: t => a ++ '\n' :: joinNLC t

/-- List callback (part_000 lines 50–57 and 60–67): trim the block, split
on newlines, strip each line's marker, wrap in `<li>`s and the list tag. -/
def listRepl (strip : List Char → List Char) (o c : List Char) (blockText : List Char) : List Char :=
  let items := (splitNLL (jsTrimL blockText)).map
    (fun ln => "<li>".data ++ strip ln ++ "</li>".data)
  o ++ items.flatten ++ c

/-- Unordered-list matcher at the string start. -/
def uListM0 (s : List Char) : Option (List Char × Nat) :=
  (listBlockLen ulIter s).map
    (fun n => (listRepl ulItemStrip "<ul>".data "</ul>".data (s.take n), n))

/-- Unordered-list matcher at a newline. -/
def uListM1 : List Char → Option (List Char × Nat)
  | '\n' :: t =>
    (listBlockLen ulIter t).map
      (fun n => (listRepl ulItemStrip "<ul>".data "</ul>".data ('\n' :: t.take n), n + 1))
  | _ => none

/-- part_000 unordered-list stage. -/
def uListStage (s : List Char) : List Char := scanStart uListM0 uListM1 s

/-- Ordered-list matcher at the string start. -/
def oListM0 (s : List Char) : Option (List Char × Nat) :=
  (listBlockLen olIter s).map
    (fun n => (listRepl olItemStrip "<ol>".data "</ol>".data (s.take n), n))

/-- Ordered-list matcher at a newline. -/
def oListM1 : List Char → Option (List Char × Nat)
  | '\n' :: t =>
    (listBlockLen olIter t).map
      (fun n => (listRepl olItemStrip "<ol>".data "</ol>".data ('\n' :: t.take n), n + 1))
  | _ => none

/-- part_000 ordered-list stage. -/
def oListStage (s : List Char) : List Char := scanStart oListM0 oListM1 s

/-- part_000 inline-code matcher (line 72): a backtick, a maximal
non-empty backtick-free run, a backtick (no look-ahead here, unlike the
main file). -/
def p0CodeM (s : List Char) : Option (List Char × Nat) :=
  match s with
  | c :: t =>
    if c = btick then
      let run := t.takeWhile (fun x => x ≠ btick)
      if run = [] then none
      else
        match t.drop run.length with
        | d :: _ =>
          if d = btick then some ("<code>".data ++ run ++ "</code>".data, run.length + 2)
          else none
        | [] => none
    else none
  | [] => none

/-- part_000 inline-code stage. -/
def p0CodeStage (s : List Char) : List Char := scanRepl p0CodeM s

/-- part_000 bold matcher (line 77), `\*\*([^*]+)\*\*`: two stars, a
maximal non-empty star-free run, two stars. -/
def p0BoldM : List Char → Option (List Char × Nat)
  | '*' :: '*' :: t =>
    let run := t.takeWhile (fun c => c ≠ '*')
    if run = [] then none
    else
      match t.drop run.length with
      | '*' :: '*' :: _ => some ("<strong>".data ++ run ++ "</strong>".data, run.length + 4)
      | _ => none
  | _ => none

/-- part_000 bold stage. -/
def p0BoldStage (s : List Char) : List Char := scanRepl p0BoldM s

/-- part_000 image matcher (lines 83–85), `!\[([^\]]*)\]\(([^)]+)\)` with
template replacement — the url and alt are substituted RAW (no href
validation, no additional attribute escaping). -/
def p0ImgM : List Char → Option (List Char × Nat)
  | '!' :: '[' :: t =>
    let alt := t.takeWhile (fun c => c ≠ ']')
    (match t.drop alt.length with
     | ']' :: '(' :: u =>
       let url := u.takeWhile (fun c => c ≠ ')')
       if url = [] then none
       else
         match u.drop url.length with
         | ')' :: _ =>
           some ("<img src=\"".data ++ url ++ "\" alt=\"".data ++ alt ++ "\"/>".data,
             2 + alt.length + 2 + url.length + 1)
         | _ => none
     | _ => none)
  | _ => none

/-- part_000 image stage. -/
def p0ImgStage (s : List Char) : List Char := scanRepl p0ImgM s

/-- part_000 link matcher (lines 90–92), `\[([^\]]+)\]\(([^)]+)\)` with
template replacement `<a href="$2" target="_blank"
rel="noopener noreferrer">$1</a>` — the url is substituted RAW: no
`safeLinkHref`, no attribute escaping beyond the global escape pass. -/
def p0LinkM : List Char → Option (List Char × Nat)
  | '[' :: t =>
    let label := t.takeWhile (fun c => c ≠ ']')
    if label = [] then none
    else
      match t.drop label.length with
      | ']' :: '(' :: u =>
        let url := u.takeWhile (fun c => c ≠ ')')
        if url = [] then none
        else
          match u.drop url.length with
          | ')' :: _ =>
            some ("<a href=\"".data ++ url
              ++ "\" target=\"_blank\" rel=\"noopener noreferrer\">".data ++ label
              ++ "</a>".data,
              1 + label.length + 2 + url.length + 1)
          | _ => none
      | _ => none
  | [] => none
  | _ => none

/-- part_000 link stage. -/
def p0LinkStage (s : List Char) : List Char := scanRepl p0LinkM s

/-- JS `s.split(/\n{2,}/)` (part_000 line 97): split at maximal runs of
two or more newlines (fuel-structural on a fuel ≥ the list length). -/
def splitNN : Nat → List Char → List (List Char)
  | 0, l => [l]
  | fuel + 1, s =>
    match s with
    | [] => [[]]
    | '\n' :: '\n' :: t => [] :: splitNN fuel (t.dropWhile (fun c => c = '\n'))
    | c :: t =>
      match splitNN fuel t with
      | h :: r => (c :: h) :: r
      | [] => [[c]]

/-- The block-tag test `/^<(h\d|pre|ul|ol|blockquote|hr|img)/` of the
paragraph wrapper (part_000 line 99). -/
def startsBlockTag (b : List Char) : Bool :=
  match b with
  | '<' :: r =>
    (match r with
     | 'h' :: d :: _ => isDigitA d
     | _ => false) ||
    startsWithL "pre".data r || startsWithL "ul".data r || startsWithL "ol".data r ||
    startsWithL "blockquote".data r || startsWithL "hr".data r || startsWithL "img".data r
  | _ => false

/-- The paragraph wrapper (part_000 lines 97–101): split on blank-line
runs, trim, drop empties, wrap non-tag blocks in `<p>` with `\n`→`<br/>`,
join with newlines. -/
def paraWrap (s : List Char) : List Char :=
  let blocks := ((splitNN s.length s).map jsTrimL).filter (fun b => !b.isEmpty)
  joinNLC (blocks.map (fun b =>
    if startsBlockTag b then b
    else "<p>".data ++ replaceAllL ['\n'] "<br/>".data b ++ "</p>".data))

/-- The second renderer file's `mdToHtml` (part_000 lines 11–102): all
stages in source order. -/
def mdToHtml000 (md : String) : String :=
  ⟨paraWrap
    (p0LinkStage
      (p0ImgStage
        (italStage '*'
          (p0BoldStage
            (p0CodeStage
              (oListStage
                (uListStage
                  (bqStage
                    (hrStage
                      (headingStage 1 "<h1>".data "</h1>".data
                        (headingStage 2 "<h2>".data "</h2>".data
                          (headingStage 3 "<h3>".data "</h3>".data
                            (codeBlockStage
                              (escapeHtmlL (normalize000 md).data))))))))))))))⟩

/-! ## Helper lemmas -/

/-- Dropping by a failing predicate cannot erase a final non-matching
element. -/
theorem dropWhile_app_ne (p : Char → Bool) (l : List Char) (c : Char) (hc : p c = false) :
    (l ++ [c]).dropWhile p ≠ [] := by
  induction l with
  | nil => simp [List.dropWhile, hc]
  | cons a t ih =>
    by_cases h : p a
    · simpa [List.dropWhile, h] using ih
    · simp [List.dropWhile, h]

/-- A successful `startsWithL` on a cons pattern exposes the head. -/
theorem startsWithL_cons (a : Char) (p s : List Char) (h : startsWithL (a :: p) s = true) :
    ∃ t, s = a :: t := by
  cases s with
  | nil => simp [startsWithL] at h
  | cons b t =>
    simp [startsWithL] at h
    exact ⟨t, by rw [h.1]⟩

/-- A list whose whitespace-dropped form starts with a non-whitespace
character has a non-empty trim. -/
theorem jsTrimL_ne_nil (l : List Char) (c : Char) (t : List Char)
    (h : l.dropWhile isJsWs = c :: t) (hc : isJsWs c = false) : jsTrimL l ≠ [] := by
  unfold jsTrimL
  rw [h]
  simp only [List.reverse_cons, ne_eq, List.reverse_eq_nil_iff]
  exact dropWhile_app_ne isJsWs t.reverse c hc

/-- `drop (takeWhile p l).length l = dropWhile p l`. -/
theorem drop_takeWhile_len (p : Char → Bool) (l : List Char) :
    l.drop (l.takeWhile p).length = l.dropWhile p := by
  induction l with
  | nil => rfl
  | cons a t ih =>
    by_cases h : p a
    · simp [List.takeWhile_cons, List.dropWhile_cons, h, ih]
    · simp [List.takeWhile_cons, List.dropWhile_cons, h]

/-- A line opening a fence is not blank (its trim keeps the marker). -/
theorem parseFence_trim_ne {l : String} {f : Fence} (hf : parseFence l = some f) :
    jsTrim l ≠ "" := by
  intro hempty
  have hnil : jsTrimL l.data = [] := congrArg String.data hempty
  have hbt : "```".data = [btick, btick, btick] := by decide
  have htd : "~~~".data = ['~', '~', '~'] := by decide
  by_cases h3 : startsWithL "```".data (l.data.dropWhile isJsWs) = true
  · rw [hbt] at h3
    obtain ⟨t, ht⟩ := startsWithL_cons _ _ _ h3
    exact jsTrimL_ne_nil l.data btick t ht (by decide) hnil
  · by_cases h4 : startsWithL "~~~".data (l.data.dropWhile isJsWs) = true
    · rw [htd] at h4
      obtain ⟨t, ht⟩ := startsWithL_cons _ _ _ h4
      exact jsTrimL_ne_nil l.data '~' t ht (by decide) hnil
    · rw [← drop_takeWhile_len isJsWs l.data] at h3 h4
      simp [parseFence, h3, h4] at hf

/-- `String.mk` against the empty string. -/
theorem strMk_eq_empty (l : List Char) : ((⟨l⟩ : String) = "") ↔ l = [] :=
  ⟨fun h => congrArg String.data h, fun h => by rw [h]⟩

/-- The one-loop-iteration evaluation at the non-terminating input. -/
theorem segStep_dash : segStep ["- "] 0 = some (some (Block.paragraph []), 0) := by decide

/-- When no line closes the fence, the whole suffix is collected. -/
theorem fenceCollect_all (marker : String) (ls : List String)
    (h : ∀ l ∈ ls, fenceCloseTest marker l = false) :
    fenceCollect marker ls = (ls, false) := by
  induction ls with
  | nil => rfl
  | cons a t ih =>
    have ht := ih (fun l hl => h l (by simp [hl]))
    simp [fenceCollect, h a (by simp), ht]

/-- The or-`#`-defaulted output of the link policy never begins
(case-insensitively) with a dangerous scheme. -/
theorem orHash_noDangerousScheme (u : List Char) :
    startsWithL "javascript:".data
      (jsToLowerL (if safeLinkHrefL u false = [] then "#".data else safeLinkHrefL u false)) = false ∧
    startsWithL "vbscript:".data
      (jsToLowerL (if safeLinkHrefL u false = [] then "#".data else safeLinkHrefL u false)) = false ∧
    startsWithL "data:".data
      (jsToLowerL (if safeLinkHrefL u false = [] then "#".data else safeLinkHrefL u false)) = false := by
  unfold safeLinkHrefL
  by_cases h0 : jsTrimL u = []
  · simp [h0]
    decide
  · by_cases h1 : startsWithL "javascript:".data (jsToLowerL (jsTrimL u)) = true
    · simp [h0, h1]
      decide
    · by_cases h2 : startsWithL "vbscript:".data (jsToLowerL (jsTrimL u)) = true
      · simp [h0, h2]
        decide
      · by_cases h3 : startsWithL "data:".data (jsToLowerL (jsTrimL u)) = true
        · simp [h0, h1, h2, h3]
          decide
        · simp [h0, h1, h2, h3]

/-! ## Claim theorems -/

/-- C1 (counterexample to the claim as stated): the candidate
`"  http://a"` is non-empty and, after trimming, begins with none of the
three dangerous schemes, yet `validateHref` does not return it verbatim —
it returns the trimmed `"http://a"`. -/
theorem C1_counterexample :
    "  http://a" ≠ "" ∧
    startsWithL "javascript:".data (jsToLowerL (jsTrimL "  http://a".data)) = false ∧
    startsWithL "vbscript:".data (jsToLowerL (jsTrimL "  http://a".data)) = false ∧
    startsWithL "data:".data (jsToLowerL (jsTrimL "  http://a".data)) = false ∧
    safeLinkHref "  http://a" false ≠ "  http://a" ∧
    safeLinkHref "  http://a" false = "http://a" := by decide

/-- C1 (amended): every candidate whose trimmed form begins
case-insensitively with `javascript:`, `vbscript:` or `data:` is rejected
(empty result) by `validateHref(candidate, false)`; every other candidate
that is non-empty after trimming is returned trimmed (hence verbatim
exactly when it carries no surrounding whitespace). -/
theorem C1_claim (c : String) :
    (startsWithL "javascript:".data (jsToLowerL (jsTrimL c.data)) = true ∨
     startsWithL "vbscript:".data (jsToLowerL (jsTrimL c.data)) = true ∨
     startsWithL "data:".data (jsToLowerL (jsTrimL c.data)) = true →
       safeLinkHref c false = "") ∧
    (jsTrim c ≠ "" →
     startsWithL "javascript:".data (jsToLowerL (jsTrimL c.data)) = false →
     startsWithL "vbscript:".data (jsToLowerL (jsTrimL c.data)) = false →
     startsWithL "data:".data (jsToLowerL (jsTrimL c.data)) = false →
       safeLinkHref c false = jsTrim c) := by
  have hne : ∀ _ : jsTrim c ≠ "", jsTrimL c.data ≠ [] := by
    intro h hx
    exact h (congrArg String.mk hx)
  constructor
  · intro h
    unfold safeLinkHref safeLinkHrefL
    rcases h with h | h | h <;> simp [h]
  · intro h0 h1 h2 h3
    unfold safeLinkHref safeLinkHrefL jsTrim
    simp [hne h0, h1, h2, h3]

/-- C1 witness: the theorem applied at a mixed-case dangerous candidate
and at a whitespace-padded safe candidate. -/
theorem C1_witness :
    safeLinkHref "JavaScript:alert(1)" false = "" ∧
    safeLinkHref "  http://a" false = jsTrim "  http://a" :=
  ⟨(C1_claim "JavaScript:alert(1)").1 (Or.inl (by decide)),
   (C1_claim "  http://a").2 (by decide) (by decide) (by decide) (by decide)⟩

/-- C2 (confirmed): with default options the fallback inline renderer
neutralizes rejected URLs silently — an image with a rejected url renders
as the empty string, `[x](javascript:alert(1))` renders an anchor with
`href="#"` whose label still shows, and the bare-URL callback leaves
`p1 + url` as plain text whenever the policy rejects the url. -/
theorem C2_claim :
    renderInline "![a](javascript:x)" defaultOpts = "" ∧
    renderInline "[x](javascript:alert(1))" defaultOpts =
      "<a href=\"#\" target=\"_blank\" rel=\"noopener noreferrer\">x</a>)" ∧
    ∀ p1 url : List Char, safeLinkHrefL (unescapeHtmlL url) false = [] →
      bareUrlRepl defaultOpts p1 url = p1 ++ url := by
  refine ⟨by decide, by decide, ?_⟩
  intro p1 url h
  simp [bareUrlRepl, defaultOpts, h]

/-- C2 witness: the bare-URL conjunct applied at a rejected concrete url. -/
theorem C2_witness :
    safeLinkHrefL (unescapeHtmlL "javascript:y".data) false = [] ∧
    bareUrlRepl defaultOpts " ".data "javascript:y".data = " javascript:y".data :=
  ⟨by decide, C2_claim.2.2 " ".data "javascript:y".data (by decide)⟩

/-- C3 (code bug): on the single line `"- "` the segmenter's cursor does
NOT advance — the loop body returns an empty paragraph with the cursor
unchanged, so with any fuel `n` the loop has produced `n` copies of the
empty paragraph and never terminates.  (The line matches the
paragraph-stopping list-marker test but not `parseList`'s stricter item
pattern, so every earlier branch misses and `parseParagraph` stops at
line one with nothing consumed.) -/
theorem C3_claim :
    segStep ["- "] 0 = some (some (Block.paragraph []), 0) ∧
    ∀ fuel : Nat, segLoop ["- "] fuel 0 = List.replicate fuel (Block.paragraph []) := by
  refine ⟨segStep_dash, ?_⟩
  intro fuel
  induction fuel with
  | zero => rfl
  | succ n ih => simp [segLoop, segStep_dash, ih, List.replicate_succ]

/-- C4 (counterexample to the claim as stated): the content of the inline
code span in `` `**x**` `` IS further processed — the bold stage rewrites
it to `<code><strong>x</strong></code>`, so emphasis markers inside
backticks do not stay literal. -/
theorem C4_counterexample :
    renderInline "`**x**`" defaultOpts = "<code><strong>x</strong></code>" ∧
    ("<code><strong>x</strong></code>" : String) ≠ "<code>**x**</code>" := by decide

/-- C4 (amended): a single-backtick span becomes a `<code>` element, but
the purely textual pipeline does not protect its content from later
stages — content without markup-active characters stays literal, while
e.g. bold markers inside backticks are still converted. -/
theorem C4_claim :
    renderInline "`y`" defaultOpts = "<code>y</code>" ∧
    renderInline "`**x**`" defaultOpts = "<code><strong>x</strong></code>" := by decide

/-- C5 (counterexample to the claim as stated): the second renderer file
serializes a Markdown link's url into `href` with no scheme validation —
`[x](javascript:evil)` yields an anchor whose href is the dangerous url
itself. -/
theorem C5_counterexample :
    mdToHtml000 "[x](javascript:evil)" =
      "<p><a href=\"javascript:evil\" target=\"_blank\" rel=\"noopener noreferrer\">x</a></p>" ∧
    hasSubstr "href=\"javascript:".data (mdToHtml000 "[x](javascript:evil)").data = true := by
  decide

/-- C5 (amended): in mdToHtml.js every anchor href is passed through the
Link Safety Policy and attribute-escaped before serialization — the
fallback link callback emits exactly `<a href="` + `escapeAttr` of the
validated-or-`#` value, that value never begins with a dangerous scheme,
and the markdown-it `link_open` override likewise substitutes the
validated-or-`#` value; the second renderer file does neither (see the
counterexample). -/
theorem C5_claim :
    (∀ (opts : Opts) (label url : List Char) (title : Option (List Char)),
      ∃ rest, linkRepl opts label url title =
        "<a href=\"".data ++
          escapeAttrL (if safeLinkHrefL (unescapeHtmlL url) opts.allowUnsafeLinks = []
            then "#".data else safeLinkHrefL (unescapeHtmlL url) opts.allowUnsafeLinks) ++
          ['"'] ++ rest) ∧
    (∀ url : List Char,
      startsWithL "javascript:".data
        (jsToLowerL (if safeLinkHrefL (unescapeHtmlL url) false = []
          then "#".data else safeLinkHrefL (unescapeHtmlL url) false)) = false) ∧
    (∀ href : String,
      startsWithL "javascript:".data (jsToLowerL (linkOpenOverride href).data) = false) := by
  refine ⟨?_, ?_, ?_⟩
  · intro opts label url title
    refine ⟨titleAttr title ++ targetAttr opts ++ ['>'] ++ label ++ "</a>".data, ?_⟩
    simp [linkRepl, List.append_assoc]
  · intro url
    exact (orHash_noDangerousScheme (unescapeHtmlL url)).1
  · intro href
    have h := (orHash_noDangerousScheme href.data).1
    unfold linkOpenOverride safeLinkHref
    by_cases h0 : safeLinkHrefL href.data false = []
    · rw [if_pos ((strMk_eq_empty _).mpr h0)]
      decide
    · rw [if_neg (fun hx => h0 ((strMk_eq_empty _).mp hx))]
      simpa [h0] using h

/-- C6 (confirmed): the segmenter classifies in the fixed source order —
in particular, at any cursor whose line opens a fence, the produced block
is a code block (a fence wins over every later block type) and the cursor
strictly advances; and the concrete fenced input whose body looks like an
ATX heading renders as a single `<pre><code>` block. -/
theorem C6_claim :
    (∀ (lines : List String) (i : Nat) (hi : i < lines.length) (f : Fence),
      parseFence lines[i] = some f →
      ∃ content nxt, segStep lines i = some (some (Block.code f.lang content), nxt) ∧ i < nxt) ∧
    fallbackMdToHtmlF 5 defaultOpts (some "```\n# not a heading\n```") =
      "<pre><code># not a heading</code></pre>" := by
  refine ⟨?_, by decide⟩
  intro lines i hi f hf
  have hdrop : lines.drop i = lines[i] :: lines.drop (i + 1) := List.drop_eq_getElem_cons hi
  have hne : jsTrim lines[i] ≠ "" := parseFence_trim_ne hf
  refine ⟨joinNL (fenceCollect f.marker (lines.drop (i + 1))).1,
    i + 1 + (fenceCollect f.marker (lines.drop (i + 1))).1.length +
      (if (fenceCollect f.marker (lines.drop (i + 1))).2 then 1 else 0), ?_, ?_⟩
  · unfold segStep
    rw [hdrop]
    simp [hne, hf]
  · split <;> omega

/-- C6 witness: the fence-priority conjunct applied at a one-line fence. -/
theorem C6_witness :
    parseFence "```" = some ⟨0, "```", ""⟩ ∧
    ∃ content nxt, segStep ["```"] 0 = some (some (Block.code "" content), nxt) ∧ 0 < nxt :=
  ⟨by decide, C6_claim.1 ["```"] 0 (by decide) ⟨0, "```", ""⟩ (by decide)⟩

/-- C7 (counterexample to the claim as stated): a delimiter line of four
backticks does NOT open a fence — `parseFence` rejects it and the
segmenter classifies the line as a paragraph, not code. -/
theorem C7_counterexample :
    parseFence "````" = none ∧
    segStep ["````"] 0 = some (some (Block.paragraph ["````"]), 1) := by decide

/-- C7 (amended): a fence opens with exactly three backticks or tildes
(optional language tag) and closes at a line holding exactly the same
three-character marker on its own (longer runs neither open nor close);
with no closing line the fence collects every remaining line to
end-of-input into one code block, and a closing line is consumed. -/
theorem C7_claim :
    (∀ (marker : String) (ls : List String),
      (∀ l ∈ ls, fenceCloseTest marker l = false) → fenceCollect marker ls = (ls, false)) ∧
    parseFence "```" = some ⟨0, "```", ""⟩ ∧
    parseFence "```js" = some ⟨0, "```", "js"⟩ ∧
    parseFence "~~~" = some ⟨0, "~~~", ""⟩ ∧
    parseFence "````" = none ∧
    fenceCloseTest "```" " ``` " = true ∧
    fenceCloseTest "```" "````" = false ∧
    segStep ["```", "x", "```", "y"] 0 = some (some (Block.code "" "x"), 3) ∧
    segStep ["```", "a", "b"] 0 = some (some (Block.code "" "a\nb"), 3) :=
  ⟨fenceCollect_all, by decide, by decide, by decide, by decide, by decide, by decide,
   by decide, by decide⟩

/-- C7 witness: the unterminated-fence conjunct applied at a concrete
suffix with no closing line. -/
theorem C7_witness :
    (∀ l ∈ ["q", "r"], fenceCloseTest "```" l = false) ∧
    fenceCollect "```" ["q", "r"] = (["q", "r"], false) :=
  ⟨by decide, C7_claim.1 "```" ["q", "r"] (by decide)⟩

/-- C8 (counterexample to the claim as stated): with `allowUnsafe` set the
candidate does not pass through unchanged — it is still trimmed. -/
theorem C8_counterexample :
    safeLinkHref " javascript:x " true = "javascript:x" ∧
    ("javascript:x" : String) ≠ " javascript:x " := by decide

/-- C8 (amended): with `allowUnsafe` set, scheme validation is skipped but
trimming still applies — `validateHref(h, true)` equals the trimmed
candidate for every `h` (so whitespace-free candidates pass through
unchanged, in particular `"javascript:x"`). -/
theorem C8_claim :
    (∀ h : String, safeLinkHref h true = jsTrim h) ∧
    safeLinkHref "javascript:x" true = "javascript:x" := by
  constructor
  · intro h
    unfold safeLinkHref safeLinkHrefL jsTrim
    by_cases hx : jsTrimL h.data = [] <;> simp [hx]
  · decide

/-- C9 (counterexample to the claim as stated): escaping the
already-escaped string `"&amp;"` yields exactly `"&amp;amp;"`. -/
theorem C9_counterexample :
    escapeHtml "&amp;" = "&amp;amp;" ∧ ("&amp;amp;" : String) ≠ "&amp;" := by decide

/-- C9 (amended): the escape function itself is not idempotent; what holds
is that one pipeline pass applies it exactly once — raw `"&"` comes out
single-escaped as `"&amp;"`, while feeding already-escaped `"&amp;"`
through a pass re-escapes it to `"&amp;amp;"`. -/
theorem C9_claim :
    renderInline "&" defaultOpts = "&amp;" ∧
    renderInline "&amp;" defaultOpts = "&amp;amp;" := by decide

/-- C10 (confirmed): with no external engine, a `null`/`undefined` source
normalizes to `""`, the segmenter produces zero blocks for it, and the
entry point returns the empty string (the embedding is total — no
exception paths exist). -/
theorem C10_claim :
    normalizeNewlines none = "" ∧
    (∀ fuel : Nat, segLoop (splitLines none) (fuel + 1) 0 = []) ∧
    (∀ fuel : Nat, mdToHtmlNoEngine (fuel + 1) none defaultOpts = "") := by
  have h1 : splitLines none = [""] := by decide
  have h0 : segStep [""] 0 = some (none, 1) := by decide
  have h2 : ∀ f : Nat, segLoop [""] f 1 = [] := by
    intro f
    cases f with
    | zero => rfl
    | succ n => simp [segLoop, segStep]
  have h3 : ∀ fuel : Nat, segLoop (splitLines none) (fuel + 1) 0 = [] := by
    intro fuel
    rw [h1]
    simp [segLoop, h0, h2]
  refine ⟨by decide, h3, ?_⟩
  intro fuel
  unfold mdToHtmlNoEngine fallbackMdToHtmlF fallbackEngine
  rw [h3 fuel]
  rfl

end MdSpec
